import Mathlib

/-!
# Verification of the SMS-simulation repository

Shallow embedding of `msg_producer.py`, `sender_manager.py` and
`sim_manager.py`.  Python ints are `ℤ`, floats are `ℚ` (every float the
program builds is a sum/quotient of small integers, exactly representable),
Python lists are `List`, and dynamically-typed arguments are `PyVal`.
The asyncio concurrency of `SenderManager` is embedded as a small-step
interleaving transition system: the body of `async with self.lock:` is one
atomic step (the lock makes it so), and the `await asyncio.sleep` points are
where interleavings happen.  Randomness (`random.randint`,
`random.choices`) is embedded by passing the underlying uniform draws as
oracle inputs.
-/

/-- `Message` from `msg_producer.py`: dataclass with the four fields and
their defaults. -/
structure Message where
  phone_number : String := ""
  msg_body : String := ""
  send_time : ℤ := 0
  sent_status : Bool := false
deriving Repr, DecidableEq

/-- The `stats` dictionary built in `SenderManager.__init__`:
`messages_sent`, `messages_failed` (Python ints, always non-negative
counters, so `ℕ`) and `total_send_time` (a Python float, `ℚ`). -/
structure Stats where
  messages_sent : ℕ
  messages_failed : ℕ
  total_send_time : ℚ
deriving Repr, DecidableEq

/-- A dynamically-typed Python value, as far as the repository's
`isinstance` checks need to distinguish them. -/
inductive PyVal where
  | int (n : ℤ)
  | str (s : String)
  | float (q : ℚ)
  | list (l : List Message)
  | pynone
deriving Repr, DecidableEq

/-- The Python type name, as used in the repository's error messages
(`type(x)` rendered by its bare name). -/
def PyVal.typeName : PyVal → String
  | .int _ => "int"
  | .str _ => "str"
  | .float _ => "float"
  | .list _ => "list"
  | .pynone => "NoneType"

/-- The exceptions the repository raises, with their message strings. -/
inductive PyError where
  | typeError (msg : String)
  | valueError (msg : String)
  | fileNotFoundError (msg : String)
deriving Repr, DecidableEq

/-- The message string carried by a `PyError`. -/
def PyError.msg : PyError → String
  | .typeError m => m
  | .valueError m => m
  | .fileNotFoundError m => m

/-- `true` when `msg` contains `fld` as a substring (the error "names the
offending field"). -/
def mentionsField (msg fld : String) : Bool :=
  msg.toList.tails.any (fun t => fld.toList.isPrefixOf t)

/-- The validated state of a `SenderManager` instance: the six constructor
arguments as stored on `self` (the `lock` is the transition system below,
the `stats` dict starts at zero). -/
structure SenderManager where
  avg_send_time : ℤ
  avg_send_time_factor : ℤ
  failure_rate : ℤ
  msg_pool : List Message
  num_senders : ℤ
  progress_monitor_refresh_rate : ℤ
deriving Repr, DecidableEq

/-- `SenderManager.__init__`: the validation chain from
`sender_manager.py` lines 57-92, in source order, then the field
assignments.  Raising is returning `.error`; no state (and in particular
no task) exists when validation fails. -/
def SenderManager.init (avg_send_time avg_send_time_factor failure_rate
    msg_pool num_senders progress_monitor_refresh_rate : PyVal) :
    Except PyError SenderManager :=
  match avg_send_time with
  | .int a =>
    if a < 2 then
      .error (.valueError ("avg_send_time cannot be " ++ toString a ++
        ", must be 2 or greater."))
    else
      match avg_send_time_factor with
      | .int f =>
        if f < 0 then
          .error (.valueError ("avg_send_time_factor cannot be " ++
            toString f ++ ", must be 0 or greater."))
        else
          match failure_rate with
          | .int fr =>
            if fr < 0 ∨ fr > 100 then
              .error (.valueError ("failure_rate cannot be " ++
                toString fr ++ ", must be in the range of 0 - 100."))
            else
              match msg_pool with
              | .list pool =>
                if pool.length < 1 then
                  .error (.valueError
                    ("msg_pool length cannot be [], must be greater than 1."))
                else
                  match num_senders with
                  | .int ns =>
                    if ns < 1 then
                      .error (.valueError ("num_senders cannot be " ++
                        toString ns ++ ", must be greater than 1."))
                    else
                      match progress_monitor_refresh_rate with
                      | .int rr =>
                        if rr < 1 then
                          .error (.valueError
                            ("progress_monitor_refresh_rate cannot be " ++
                              toString rr ++ ", must be 1 or greater."))
                        else
                          .ok { avg_send_time := a,
                                avg_send_time_factor := f,
                                failure_rate := fr,
                                msg_pool := pool,
                                num_senders := ns,
                                progress_monitor_refresh_rate := rr }
                      | v => .error (.typeError
                          ("progress_monitor_refresh_rate cannot be type " ++
                            v.typeName ++ " must be int."))
                  | v => .error (.typeError ("num_senders cannot be type " ++
                      v.typeName ++ " must be int."))
              | v => .error (.typeError ("msg_pool cannot be type " ++
                  v.typeName ++ " must be list."))
          | v => .error (.typeError ("failure_rate cannot be type " ++
              v.typeName ++ " must be int."))
      | v => .error (.typeError ("avg_send_time_factor cannot be type " ++
          v.typeName ++ " must be int."))
  | v => .error (.typeError ("avg_send_time cannot be type " ++
      v.typeName ++ " must be int."))

/-- The constructor's documented constraints on an already-typed state:
what a successfully constructed instance satisfies. -/
def SenderManager.Valid (m : SenderManager) : Prop :=
  2 ≤ m.avg_send_time ∧ 0 ≤ m.avg_send_time_factor ∧
    0 ≤ m.failure_rate ∧ m.failure_rate ≤ 100 ∧
    m.msg_pool ≠ [] ∧ 1 ≤ m.num_senders ∧
    1 ≤ m.progress_monitor_refresh_rate

instance (m : SenderManager) : Decidable m.Valid := by
  unfold SenderManager.Valid; infer_instance

/-- The stats dictionary as initialised in `__init__`. -/
def initStats : Stats := { messages_sent := 0, messages_failed := 0, total_send_time := 0 }

/-- `random.randint(a, b)` given the underlying uniform draw `u`:
`a + (u mod (b - a + 1))`.  With `u` ranging uniformly over
`0 .. b - a`, the result is the uniform integer of the closed interval
`[a, b]`. -/
def randint (a b : ℤ) (u : ℕ) : ℤ := a + (u % (b - a + 1).toNat : ℕ)

/-- `random.choices([x, y], weights=[w_x, w_y])[0]` given the underlying
uniform draw `r ∈ [0,1)`: CPython compares `r * total` against the
cumulative weights, returning the first element exactly when
`r * (w_x + w_y) < w_x`. -/
def weightedFirstChoice (w_x w_y : ℚ) (r : ℚ) : Bool :=
  decide (r * (w_x + w_y) < w_x)

/-- The first `randint` argument in `send_msg`:
`max(self.avg_send_time - self.avg_send_time_factor, 1)`. -/
def SenderManager.sendTimeLo (m : SenderManager) : ℤ :=
  max (m.avg_send_time - m.avg_send_time_factor) 1

/-- The second `randint` argument in `send_msg`:
`self.avg_send_time + self.avg_send_time_factor`. -/
def SenderManager.sendTimeHi (m : SenderManager) : ℤ :=
  m.avg_send_time + m.avg_send_time_factor

/-- `failure_rate_as_percent = self.failure_rate / 100` (the surrounding
`try/except ZeroDivisionError` in the source is dead: the divisor is the
literal 100). -/
def SenderManager.failureRateAsPercent (m : SenderManager) : ℚ :=
  (m.failure_rate : ℚ) / 100

/-- `pass_rate_as_percent = 1.00 - failure_rate_as_percent`. -/
def SenderManager.passRateAsPercent (m : SenderManager) : ℚ :=
  1 - m.failureRateAsPercent

/-- The shared mutable state guarded by `self.lock`: the pool, the stats
dict, and the append-only log written by `logger.info`. -/
structure Shared where
  msg_pool : List Message
  stats : Stats
  log : List Message
deriving Repr, DecidableEq

/-- Python `list.pop()`: removes and returns the last element.  It raises
on an empty list, so the embedding carries the non-emptiness
precondition. -/
def pyListPop (l : List Message) (h : l ≠ []) : Message × List Message :=
  (l.getLast h, l.dropLast)

/-- The body of `async with self.lock:` in `send_msg`, one atomic step:
re-check `if self.msg_pool:`; when non-empty, pop the last message, stamp
it with the precomputed state and time, log it, and update the stats; when
empty, do nothing. -/
def sendMsgCritical (send_time : ℤ) (msg_state : Bool) (s : Shared) : Shared :=
  if h : s.msg_pool = [] then s
  else
    let popped := pyListPop s.msg_pool h
    let current_msg : Message :=
      { popped.1 with sent_status := msg_state, send_time := send_time }
    let stats :=
      if current_msg.sent_status then
        { s.stats with messages_sent := s.stats.messages_sent + 1,
                       total_send_time := s.stats.total_send_time + send_time }
      else
        { s.stats with messages_failed := s.stats.messages_failed + 1 }
    { msg_pool := popped.2, stats := stats, log := s.log ++ [current_msg] }

/-- The control position of one sender worker inside its `while` loop:
at the loop top, sleeping with precomputed `send_time`/`msg_state`, or
fallen out of the loop. -/
inductive WorkerState where
  | atLoopTop
  | sleeping (send_time : ℤ) (msg_state : Bool)
  | exited
deriving Repr, DecidableEq

/-- The interleaved state of a run: shared state plus every sender
worker's position. -/
structure SimState where
  shared : Shared
  workers : List WorkerState
deriving Repr, DecidableEq

/-- Small-step semantics of the concurrent phase.  A worker at its loop
top with a non-empty pool computes its random delay and outcome and
suspends (`start`); at its loop top with an empty pool it leaves the loop
(`exit`); a sleeping worker wakes and runs the lock-protected critical
section atomically (`wake`). -/
inductive SimStep (m : SenderManager) : SimState → SimState → Prop
  | start (sh : Shared) (l₁ l₂ : List WorkerState) (u : ℕ) (r : ℚ)
      (hpool : sh.msg_pool ≠ []) (hr0 : 0 ≤ r) (hr1 : r < 1) :
      SimStep m ⟨sh, l₁ ++ .atLoopTop :: l₂⟩
        ⟨sh, l₁ ++ .sleeping (randint m.sendTimeLo m.sendTimeHi u)
          (weightedFirstChoice m.passRateAsPercent m.failureRateAsPercent r) :: l₂⟩
  | exit (sh : Shared) (l₁ l₂ : List WorkerState) (hpool : sh.msg_pool = []) :
      SimStep m ⟨sh, l₁ ++ .atLoopTop :: l₂⟩ ⟨sh, l₁ ++ .exited :: l₂⟩
  | wake (sh : Shared) (l₁ l₂ : List WorkerState) (t : ℤ) (b : Bool) :
      SimStep m ⟨sh, l₁ ++ .sleeping t b :: l₂⟩
        ⟨sendMsgCritical t b sh, l₁ ++ .atLoopTop :: l₂⟩

/-- The state right after `send_msgs` spawns its workload: the pool and
stats exactly as the constructor left them, the log empty, and
`num_senders` workers each at its loop top. -/
def SenderManager.initState (m : SenderManager) : SimState :=
  { shared := { msg_pool := m.msg_pool, stats := initStats, log := [] },
    workers := List.replicate m.num_senders.toNat .atLoopTop }

/-- The states a run can be in. -/
def SenderManager.Reachable (m : SenderManager) (s : SimState) : Prop :=
  Relation.ReflTransGen (SimStep m) m.initState s

/-- The task list built by `send_msgs`:
`[self.send_msg() for _ in range(1, self.num_senders + 1)]` followed by
the appended `self.progress_monitor()`. -/
inductive SimTask where
  | sender
  | monitor
deriving Repr, DecidableEq

/-- `sender_pool` as `send_msgs` constructs it. -/
def SenderManager.senderPoolTasks (m : SenderManager) : List SimTask :=
  ((List.range' 1 m.num_senders.toNat).map fun _ => SimTask.sender) ++
    [SimTask.monitor]

/-- `await asyncio.gather(*sender_pool)`: completion of the gather given
each spawned task's completion flag. -/
def gatherComplete (done : List Bool) : Bool := done.all id

/-- The monitor's average: `total_send_time / messages_sent` with
`ZeroDivisionError` (raised by Python exactly when `messages_sent == 0`)
caught and turned into `0.0`. -/
def progressMonitorAverage (st : Stats) : ℚ :=
  if st.messages_sent = 0 then 0 else st.total_send_time / st.messages_sent

/-- Two-digit zero-padding for the fractional part of a `.2f` format. -/
def pad2 (n : ℕ) : String := if n < 10 then "0" ++ toString n else toString n

/-- Python `f"{q:.2f}"` on the non-negative values this program prints:
round to hundredths and render with two decimals. -/
def format2f (q : ℚ) : String :=
  let c : ℤ := round (q * 100)
  toString (c / 100) ++ "." ++ pad2 (c % 100).toNat

/-- One refresh cycle's printed report lines. -/
structure MonitorReport where
  messages_sent_line : String
  average_line : String
  messages_failed_line : String
deriving Repr, DecidableEq

/-- The body of the monitor's guarded section: read the stats snapshot and
format the three report lines. -/
def progressMonitorReport (st : Stats) : MonitorReport :=
  { messages_sent_line := "Messages Sent: " ++ toString st.messages_sent,
    average_line := "Average Message Send Time: " ++
      format2f (progressMonitorAverage st) ++ "s",
    messages_failed_line := "Messages Failed: " ++ toString st.messages_failed }

/-- The pseudo-random source of `msg_producer.py`, embedded as an oracle
stream of raw uniform naturals and a cursor. -/
structure Rng where
  stream : ℕ → ℕ
  idx : ℕ

/-- Draw the next raw value. -/
def Rng.next (g : Rng) : ℕ × Rng := (g.stream g.idx, { g with idx := g.idx + 1 })

/-- `random.randint(a, b)` threaded through the oracle. -/
def pyRandint (a b : ℤ) (g : Rng) : ℤ × Rng :=
  let d := g.next
  (randint a b d.1, d.2)

/-- `random.choices(population, k=k)`: `k` independent uniform picks from
`population` (each raw draw reduced mod the population size). -/
def pyChoices (population : List Char) : ℕ → Rng → List Char × Rng
  | 0, g => ([], g)
  | k + 1, g =>
    let d := g.next
    let c := population.getD (d.1 % population.length) ' '
    let rest := pyChoices population k d.2
    (c :: rest.1, rest.2)

/-- `string.digits`. -/
def stringDigits : List Char := "0123456789".toList

/-- `string.ascii_letters`. -/
def stringAsciiLetters : List Char :=
  "abcdefghijklmnopqrstuvwxyzABCDEFGHIJKLMNOPQRSTUVWXYZ".toList

/-- `MSG_LEN_LIMIT` from `generate_msg`. -/
def MSG_LEN_LIMIT : ℤ := 100

/-- `generate_msg()`: default `Message`, then a 10-digit phone number, then
a random body length in `[1, MSG_LEN_LIMIT]`, then the body. -/
def generate_msg (g : Rng) : Message × Rng :=
  let msg : Message := {}
  let phone := pyChoices stringDigits 10 g
  let len := pyRandint 1 MSG_LEN_LIMIT phone.2
  let body := pyChoices stringAsciiLetters len.1.toNat len.2
  ({ msg with phone_number := String.mk phone.1, msg_body := String.mk body.1 },
    body.2)

/-- `[generate_msg() for _ in range(n)]`, threading the oracle. -/
def generateMsgList : ℕ → Rng → List Message × Rng
  | 0, g => ([], g)
  | n + 1, g =>
    let m := generate_msg g
    let rest := generateMsgList n m.2
    (m.1 :: rest.1, rest.2)

/-- `generate_msg_pool(msg_count)`: the `isinstance`/range validation from
`msg_producer.py` lines 42-47, then the comprehension. -/
def generate_msg_pool (msg_count : PyVal) (g : Rng) :
    Except PyError (List Message × Rng) :=
  match msg_count with
  | .int n =>
    if n < 1 then
      .error (.valueError ("msg_count cannot be " ++ toString n ++
        ", must be 1 or greater."))
    else
      .ok (generateMsgList n.toNat g)
  | v => .error (.typeError ("msg_count cannot be type " ++ v.typeName ++
      " must be int."))

/-- Python `str.split(sep)` for a one-character separator, on the
character list.  Always returns a non-empty list. -/
def splitOnChar (sep : Char) : List Char → List (List Char)
  | [] => [[]]
  | c :: cs =>
    let r := splitOnChar sep cs
    if c = sep then [] :: r
    else (c :: r.headD []) :: r.tail

/-- `path_to_config.split(".")[-1]`. -/
def lastDotComponent (p : String) : List Char :=
  (splitOnChar '.' p.toList).getLastD []

/-- `parse_config_file` from `sim_manager.py`: the `isinstance` check, the
`os.path.isfile` check, then the extension check; on success the file is
read and `toml.loads` applied.  The filesystem and the TOML parser are
embedded as oracles `isfile` and `toml_loads`. -/
def parse_config_file {α : Type} (isfile : String → Bool)
    (toml_loads : String → α) (path_to_config : PyVal) : Except PyError α :=
  match path_to_config with
  | .str p =>
    if isfile p = false then
      .error (.fileNotFoundError ("Config file: " ++ p ++
        " not found. Check that the correct config file was used."))
    else if lastDotComponent p ≠ "toml".toList then
      .error (.valueError ("Invalid file extension in config file: " ++ p ++
        ", should be a toml file."))
    else
      .ok (toml_loads p)
  | v => .error (.typeError ("path_to_config cannot be type " ++
      v.typeName ++ " must be str."))

/-- The success-weighted total of a log: the sum of the stamped
`send_time` of the messages whose stamped `sent_status` is true. -/
def logTotal (log : List Message) : ℚ :=
  ((log.filter (fun msg => msg.sent_status)).map
    (fun msg => (msg.send_time : ℚ))).sum

/-- A concrete default message, for instantiating universally quantified
results. -/
def msgEx : Message := {}

/-- A concrete valid manager (smallest valid arguments, one message). -/
def mgrEx : SenderManager :=
  { avg_send_time := 2, avg_send_time_factor := 0, failure_rate := 0,
    msg_pool := [msgEx], num_senders := 1,
    progress_monitor_refresh_rate := 1 }

/-- The same manager with certain failure. -/
def mgrExFail : SenderManager := { mgrEx with failure_rate := 100 }

/-- A concrete oracle stream. -/
def rngEx : Rng := { stream := fun _ => 0, idx := 0 }

/-- A concrete shared state with an empty pool. -/
def shEmptyEx : Shared := { msg_pool := [], stats := initStats, log := [] }

/-! ## Helper lemmas -/

theorem string_toList_append (a b : String) :
    (a ++ b).toList = a.toList ++ b.toList := by
  cases a; cases b; rfl

theorem mentionsField_append_right (a b fld : String)
    (h : mentionsField a fld = true) : mentionsField (a ++ b) fld = true := by
  unfold mentionsField at h ⊢
  rw [List.any_eq_true] at h ⊢
  obtain ⟨t, ht, hp⟩ := h
  rw [List.mem_tails] at ht
  rw [List.isPrefixOf_iff_prefix] at hp
  obtain ⟨s, hs⟩ := ht
  refine ⟨t ++ b.toList, ?_, ?_⟩
  · rw [List.mem_tails, string_toList_append]
    exact ⟨s, by rw [← List.append_assoc, hs]⟩
  · rw [List.isPrefixOf_iff_prefix]
    exact hp.trans (List.prefix_append t b.toList)

theorem mentionsField_append_left (a b fld : String)
    (h : mentionsField b fld = true) : mentionsField (a ++ b) fld = true := by
  unfold mentionsField at h ⊢
  rw [List.any_eq_true] at h ⊢
  obtain ⟨t, ht, hp⟩ := h
  rw [List.mem_tails] at ht
  obtain ⟨s, hs⟩ := ht
  refine ⟨t, ?_, hp⟩
  rw [List.mem_tails, string_toList_append]
  exact ⟨a.toList ++ s, by rw [List.append_assoc, hs]⟩

theorem randint_bounds {a b : ℤ} (h : a ≤ b) (u : ℕ) :
    a ≤ randint a b u ∧ randint a b u ≤ b := by
  unfold randint
  have hk : (0:ℤ) < b - a + 1 := by omega
  have hkn : 0 < (b - a + 1).toNat := by omega
  have hlt : u % (b - a + 1).toNat < (b - a + 1).toNat := Nat.mod_lt _ hkn
  have h1 : ((u % (b - a + 1).toNat : ℕ) : ℤ) < b - a + 1 := by
    omega
  have h0 : (0:ℤ) ≤ ((u % (b - a + 1).toNat : ℕ) : ℤ) := Int.ofNat_nonneg _
  omega

theorem randint_uniform {a b : ℤ} (h : a ≤ b) {v : ℤ} (hv1 : a ≤ v)
    (hv2 : v ≤ b) :
    ∃! u : ℕ, u < (b - a + 1).toNat ∧ randint a b u = v := by
  refine ⟨(v - a).toNat, ⟨by omega, ?_⟩, ?_⟩
  · unfold randint
    have h1 : (v - a).toNat < (b - a + 1).toNat := by omega
    rw [Nat.mod_eq_of_lt h1]
    omega
  · rintro u ⟨hu, hru⟩
    unfold randint at hru
    rw [Nat.mod_eq_of_lt hu] at hru
    omega

theorem sendMsgCritical_of_empty (t : ℤ) (b : Bool) (sh : Shared)
    (h : sh.msg_pool = []) : sendMsgCritical t b sh = sh := by
  unfold sendMsgCritical
  simp [h]

theorem sendMsgCritical_of_ne_empty (t : ℤ) (b : Bool) (sh : Shared)
    (h : sh.msg_pool ≠ []) :
    sendMsgCritical t b sh =
      { msg_pool := sh.msg_pool.dropLast,
        stats :=
          if b then
            { sh.stats with messages_sent := sh.stats.messages_sent + 1,
                            total_send_time := sh.stats.total_send_time + t }
          else
            { sh.stats with messages_failed := sh.stats.messages_failed + 1 },
        log := sh.log ++
          [{ sh.msg_pool.getLast h with sent_status := b, send_time := t }] } := by
  unfold sendMsgCritical pyListPop
  simp [h]

theorem reachable_invariant {m : SenderManager} {P : SimState → Prop}
    (hinit : P m.initState)
    (hstep : ∀ s s', SimStep m s s' → P s → P s') :
    ∀ s, m.Reachable s → P s := by
  intro s hs
  unfold SenderManager.Reachable at hs
  induction hs with
  | refl => exact hinit
  | tail _ h2 ih => exact hstep _ _ h2 ih

theorem logTotal_append (l₁ l₂ : List Message) :
    logTotal (l₁ ++ l₂) = logTotal l₁ + logTotal l₂ := by
  unfold logTotal
  simp

theorem logTotal_single (msg : Message) :
    logTotal [msg] = if msg.sent_status then (msg.send_time : ℚ) else 0 := by
  unfold logTotal
  cases h : msg.sent_status <;> simp [h]

theorem mem_swap_of_ne {l₁ l₂ : List WorkerState} {w w' : WorkerState}
    (hmem : WorkerState.exited ∈ l₁ ++ w' :: l₂)
    (hne : WorkerState.exited ≠ w') :
    WorkerState.exited ∈ l₁ ++ w :: l₂ := by
  simp only [List.mem_append, List.mem_cons] at hmem ⊢
  rcases hmem with h | h | h
  · exact Or.inl h
  · exact (hne h).elim
  · exact Or.inr (Or.inr h)

/-- The core invariant of a run: the statistics counters account exactly
for the messages removed from the pool, a worker can only have left its
loop once the pool is empty, the number of workers is constant, and the
running total time is the success-weighted total of the log. -/
theorem reachable_core_invariant (m : SenderManager) :
    ∀ s, m.Reachable s →
      s.shared.stats.messages_sent + s.shared.stats.messages_failed +
          s.shared.msg_pool.length = m.msg_pool.length
      ∧ (WorkerState.exited ∈ s.workers → s.shared.msg_pool = [])
      ∧ s.workers.length = m.num_senders.toNat
      ∧ s.shared.stats.total_send_time = logTotal s.shared.log := by
  apply reachable_invariant
  · refine ⟨?_, ?_, ?_, ?_⟩
    · simp [SenderManager.initState, initStats]
    · intro hmem
      simp only [SenderManager.initState] at hmem
      have := List.eq_of_mem_replicate hmem
      exact absurd this (by decide)
    · simp [SenderManager.initState]
    · simp [SenderManager.initState, initStats, logTotal]
  · rintro s s' hstep ⟨h1, h2, h3, h4⟩
    cases hstep with
    | start sh l₁ l₂ u r hpool hr0 hr1 =>
      refine ⟨h1, ?_, by simpa using h3, h4⟩
      intro hmem
      exact h2 (mem_swap_of_ne hmem (by simp))
    | exit sh l₁ l₂ hpool =>
      exact ⟨h1, fun _ => hpool, by simpa using h3, h4⟩
    | wake sh l₁ l₂ t b =>
      by_cases hpool : sh.msg_pool = []
      · rw [sendMsgCritical_of_empty t b sh hpool]
        refine ⟨h1, fun _ => hpool, by simpa using h3, h4⟩
      · rw [sendMsgCritical_of_ne_empty t b sh hpool]
        have hlen : sh.msg_pool.length ≠ 0 := by
          simpa using hpool
        refine ⟨?_, ?_, by simpa using h3, ?_⟩
        · simp only [List.length_dropLast]
          cases b <;> simp at h1 ⊢ <;> omega
        · intro hmem
          exact absurd (h2 (mem_swap_of_ne hmem (by simp))) hpool
        · rw [logTotal_append, logTotal_single]
          cases b <;> simp at h4 ⊢ <;> simp [h4]

/-- Every `msg_state` a run ever computes — still pending in a sleeping
worker or already stamped into a logged message — comes from the weighted
choice over the manager's configured rates. -/
theorem reachable_choice_invariant (m : SenderManager) (pb : Bool → Prop)
    (hchoice : ∀ r : ℚ, 0 ≤ r → r < 1 →
      pb (weightedFirstChoice m.passRateAsPercent m.failureRateAsPercent r)) :
    ∀ s, m.Reachable s →
      (∀ t b, WorkerState.sleeping t b ∈ s.workers → pb b) ∧
      (∀ msg ∈ s.shared.log, pb msg.sent_status) := by
  apply reachable_invariant
  · constructor
    · intro t b hmem
      simp only [SenderManager.initState] at hmem
      exact absurd (List.eq_of_mem_replicate hmem) (by simp)
    · intro msg hmem
      simp [SenderManager.initState] at hmem
  · rintro s s' hstep ⟨hw, hl⟩
    cases hstep with
    | start sh l₁ l₂ u r hpool hr0 hr1 =>
      refine ⟨?_, hl⟩
      intro t b hmem
      simp only [List.mem_append, List.mem_cons] at hmem
      rcases hmem with h | h | h
      · exact hw t b (List.mem_append.mpr (Or.inl h))
      · simp only [WorkerState.sleeping.injEq] at h
        rw [h.2]
        exact hchoice r hr0 hr1
      · exact hw t b (List.mem_append.mpr (Or.inr (List.mem_cons_of_mem _ h)))
    | exit sh l₁ l₂ hpool =>
      refine ⟨?_, hl⟩
      intro t b hmem
      simp only [List.mem_append, List.mem_cons] at hmem
      rcases hmem with h | h | h
      · exact hw t b (List.mem_append.mpr (Or.inl h))
      · exact absurd h (by simp)
      · exact hw t b (List.mem_append.mpr (Or.inr (List.mem_cons_of_mem _ h)))
    | wake sh l₁ l₂ t₀ b₀ =>
      have hmid : WorkerState.sleeping t₀ b₀ ∈ l₁ ++ WorkerState.sleeping t₀ b₀ :: l₂ := by
        simp
      constructor
      · intro t b hmem
        simp only [List.mem_append, List.mem_cons] at hmem
        rcases hmem with h | h | h
        · exact hw t b (List.mem_append.mpr (Or.inl h))
        · exact absurd h (by simp)
        · exact hw t b (List.mem_append.mpr (Or.inr (List.mem_cons_of_mem _ h)))
      · intro msg hmem
        by_cases hpool : sh.msg_pool = []
        · rw [sendMsgCritical_of_empty t₀ b₀ sh hpool] at hmem
          exact hl msg hmem
        · rw [sendMsgCritical_of_ne_empty t₀ b₀ sh hpool] at hmem
          simp only [List.mem_append, List.mem_singleton] at hmem
          rcases hmem with h | h
          · exact hl msg h
          · rw [h]
            exact hw t₀ b₀ hmid

/-! ## Claim theorems -/

/-- C1: at every reachable point of a run, `messages_sent + messages_failed`
equals the number of messages removed from the pool so far and never exceeds
the initial pool size; and in any completed run (every sender worker has
left its loop) the pool is empty and `messages_sent + messages_failed`
equals the initial pool size. -/
theorem C1_stats_account_for_pool (m : SenderManager) (hm : m.Valid)
    (s : SimState) (hs : m.Reachable s) :
    s.shared.stats.messages_sent + s.shared.stats.messages_failed =
        m.msg_pool.length - s.shared.msg_pool.length
    ∧ s.shared.stats.messages_sent + s.shared.stats.messages_failed ≤
        m.msg_pool.length
    ∧ ((∀ w ∈ s.workers, w = WorkerState.exited) →
        s.shared.msg_pool = [] ∧
        s.shared.stats.messages_sent + s.shared.stats.messages_failed =
          m.msg_pool.length) := by
  obtain ⟨h1, h2, h3, -⟩ := reachable_core_invariant m s hs
  refine ⟨by omega, by omega, ?_⟩
  intro hall
  have hnonnil : s.workers ≠ [] := by
    intro hnil
    rw [hnil] at h3
    obtain ⟨-, -, -, -, -, hns, -⟩ := hm
    simp only [List.length_nil] at h3
    omega
  obtain ⟨w, hwmem⟩ := List.exists_mem_of_ne_nil s.workers hnonnil
  have hex : WorkerState.exited ∈ s.workers := by
    rw [← hall w hwmem]
    exact hwmem
  have hempty := h2 hex
  refine ⟨hempty, ?_⟩
  rw [hempty] at h1
  simpa using h1

theorem C1_stats_account_for_pool_witness :
    mgrEx.initState.shared.stats.messages_sent +
        mgrEx.initState.shared.stats.messages_failed =
      mgrEx.msg_pool.length - mgrEx.initState.shared.msg_pool.length :=
  (C1_stats_account_for_pool mgrEx (by decide) mgrEx.initState
    Relation.ReflTransGen.refl).1

/-- C10: throughout every run, `total_send_time` equals the sum of the
stamped `send_time` delays of exactly the successfully sent processed
messages (each failed send contributes nothing, each successful send
contributes its own stamped delay once). -/
theorem C10_total_time_is_success_delays (m : SenderManager)
    (s : SimState) (hs : m.Reachable s) :
    s.shared.stats.total_send_time = logTotal s.shared.log :=
  (reachable_core_invariant m s hs).2.2.2

theorem C10_total_time_is_success_delays_witness :
    mgrEx.initState.shared.stats.total_send_time =
      logTotal mgrEx.initState.shared.log :=
  C10_total_time_is_success_delays mgrEx mgrEx.initState
    Relation.ReflTransGen.refl

/-- C6: with `failure_rate = 0` every processed (logged) message ends with
`sent_status = true`; with `failure_rate = 100` every processed message
ends with `sent_status = false` and `total_send_time` stays `0` for the
whole run. -/
theorem C6_extreme_failure_rates (m : SenderManager) (s : SimState)
    (hs : m.Reachable s) :
    (m.failure_rate = 0 → ∀ msg ∈ s.shared.log, msg.sent_status = true)
    ∧ (m.failure_rate = 100 →
        (∀ msg ∈ s.shared.log, msg.sent_status = false) ∧
        s.shared.stats.total_send_time = 0) := by
  constructor
  · intro h0
    have hchoice : ∀ r : ℚ, 0 ≤ r → r < 1 →
        weightedFirstChoice m.passRateAsPercent m.failureRateAsPercent r
          = true := by
      intro r hr0 hr1
      unfold weightedFirstChoice SenderManager.passRateAsPercent
        SenderManager.failureRateAsPercent
      rw [h0]
      norm_num
      linarith
    exact (reachable_choice_invariant m (· = true) hchoice s hs).2
  · intro h100
    have hchoice : ∀ r : ℚ, 0 ≤ r → r < 1 →
        weightedFirstChoice m.passRateAsPercent m.failureRateAsPercent r
          = false := by
      intro r hr0 hr1
      unfold weightedFirstChoice SenderManager.passRateAsPercent
        SenderManager.failureRateAsPercent
      rw [h100]
      norm_num
      linarith
    have hlog := (reachable_choice_invariant m (· = false) hchoice s hs).2
    refine ⟨hlog, ?_⟩
    rw [(reachable_core_invariant m s hs).2.2.2]
    unfold logTotal
    have hnil : s.shared.log.filter (fun msg => msg.sent_status) = [] := by
      rw [List.filter_eq_nil_iff]
      intro msg hmsg
      simp [hlog msg hmsg]
    rw [hnil]
    simp

theorem C6_extreme_failure_rates_witness :
    mgrExFail.initState.shared.stats.total_send_time = 0 :=
  ((C6_extreme_failure_rates mgrExFail mgrExFail.initState
    Relation.ReflTransGen.refl).2 rfl).2

/-- C2: the message removal happens only after the re-check of the pool
under the guard.  When the pool is empty at the guarded check, the guarded
section performs no mutation at all (no pop, no stats update, no log
entry), and the only step available to a worker at its loop top is to
leave the loop; any mutation of the shared state implies the pool was
non-empty, and in that case the removal is exactly `list.pop()` on a
non-empty pool. -/
theorem C2_guarded_removal_only (m : SenderManager) :
    (∀ (t : ℤ) (b : Bool) (sh : Shared), sh.msg_pool = [] →
        sendMsgCritical t b sh = sh)
    ∧ (∀ (t : ℤ) (b : Bool) (sh : Shared), sendMsgCritical t b sh ≠ sh →
        sh.msg_pool ≠ [])
    ∧ (∀ (t : ℤ) (b : Bool) (sh : Shared) (h : sh.msg_pool ≠ []),
        (sendMsgCritical t b sh).msg_pool = (pyListPop sh.msg_pool h).2)
    ∧ (∀ s s', SimStep m s s' → s.shared.msg_pool = [] →
        s'.shared = s.shared)
    ∧ (∀ (sh : Shared) (l₁ l₂ : List WorkerState), sh.msg_pool = [] →
        SimStep m ⟨sh, l₁ ++ WorkerState.atLoopTop :: l₂⟩
          ⟨sh, l₁ ++ WorkerState.exited :: l₂⟩) := by
  refine ⟨sendMsgCritical_of_empty, ?_, ?_, ?_, ?_⟩
  · intro t b sh hne
    intro hempty
    exact hne (sendMsgCritical_of_empty t b sh hempty)
  · intro t b sh h
    rw [sendMsgCritical_of_ne_empty t b sh h]
    rfl
  · intro s s' hstep hempty
    cases hstep with
    | start sh l₁ l₂ u r hpool hr0 hr1 => rfl
    | exit sh l₁ l₂ hpool => rfl
    | wake sh l₁ l₂ t b => exact sendMsgCritical_of_empty t b sh hempty
  · intro sh l₁ l₂ h
    exact SimStep.exit sh l₁ l₂ h

theorem C2_guarded_removal_only_witness :
    sendMsgCritical 5 true shEmptyEx = shEmptyEx :=
  (C2_guarded_removal_only mgrEx).1 5 true shEmptyEx rfl

/-- C5: whenever a sender worker computes its per-attempt values (the
transition from the loop top to sleeping), the delay lies in
`[max(avg_send_time - avg_send_time_factor, 1), avg_send_time +
avg_send_time_factor]` and comes from `randint` on exactly that interval,
and the outcome comes from the weighted choice on an independent draw;
`randint` hits each value of the closed interval for exactly one raw draw
(uniformity), and the weighted choice succeeds exactly on the fraction
`1 - failure_rate/100` of the unit interval. -/
theorem C5_attempt_randomness (m : SenderManager) (hm : m.Valid) :
    (∀ s s' (t : ℤ) (b : Bool), SimStep m s s' →
        WorkerState.sleeping t b ∉ s.workers →
        WorkerState.sleeping t b ∈ s'.workers →
        m.sendTimeLo ≤ t ∧ t ≤ m.sendTimeHi ∧
        ∃ (u : ℕ) (r : ℚ), 0 ≤ r ∧ r < 1 ∧
          t = randint m.sendTimeLo m.sendTimeHi u ∧
          b = weightedFirstChoice m.passRateAsPercent
                m.failureRateAsPercent r)
    ∧ (∀ v : ℤ, m.sendTimeLo ≤ v → v ≤ m.sendTimeHi →
        ∃! u : ℕ, u < (m.sendTimeHi - m.sendTimeLo + 1).toNat ∧
          randint m.sendTimeLo m.sendTimeHi u = v)
    ∧ (∀ r : ℚ, 0 ≤ r → r < 1 →
        (weightedFirstChoice m.passRateAsPercent m.failureRateAsPercent r
            = true ↔ r < 1 - (m.failure_rate : ℚ) / 100)) := by
  have hlohi : m.sendTimeLo ≤ m.sendTimeHi := by
    obtain ⟨h2, hf, -⟩ := hm
    unfold SenderManager.sendTimeLo SenderManager.sendTimeHi
    exact max_le (by omega) (by omega)
  refine ⟨?_, ?_, ?_⟩
  · intro s s' t b hstep hnot hmem
    cases hstep with
    | start sh l₁ l₂ u r hpool hr0 hr1 =>
      simp only [List.mem_append, List.mem_cons] at hmem
      rcases hmem with h | h | h
      · exact absurd (List.mem_append.mpr (Or.inl h)) hnot
      · simp only [WorkerState.sleeping.injEq] at h
        obtain ⟨ht, hb⟩ := h
        subst ht
        subst hb
        obtain ⟨hlo, hhi⟩ := randint_bounds hlohi u
        exact ⟨hlo, hhi, u, r, hr0, hr1, rfl, rfl⟩
      · exact absurd
          (List.mem_append.mpr (Or.inr (List.mem_cons_of_mem _ h))) hnot
    | exit sh l₁ l₂ hpool =>
      simp only [List.mem_append, List.mem_cons] at hmem
      rcases hmem with h | h | h
      · exact absurd (List.mem_append.mpr (Or.inl h)) hnot
      · exact absurd h (by simp)
      · exact absurd
          (List.mem_append.mpr (Or.inr (List.mem_cons_of_mem _ h))) hnot
    | wake sh l₁ l₂ t₀ b₀ =>
      simp only [List.mem_append, List.mem_cons] at hmem
      rcases hmem with h | h | h
      · exact absurd (List.mem_append.mpr (Or.inl h)) hnot
      · exact absurd h (by simp)
      · exact absurd
          (List.mem_append.mpr (Or.inr (List.mem_cons_of_mem _ h))) hnot
  · intro v hv1 hv2
    exact randint_uniform hlohi hv1 hv2
  · intro r hr0 hr1
    unfold weightedFirstChoice SenderManager.passRateAsPercent
      SenderManager.failureRateAsPercent
    have hsum : 1 - (m.failure_rate : ℚ) / 100 + (m.failure_rate : ℚ) / 100
        = 1 := by ring
    rw [hsum, mul_one]
    simp

theorem C5_attempt_randomness_witness :
    weightedFirstChoice mgrEx.passRateAsPercent mgrEx.failureRateAsPercent 0
        = true ↔ (0 : ℚ) < 1 - (mgrEx.failure_rate : ℚ) / 100 :=
  (C5_attempt_randomness mgrEx (by decide)).2.2 0 le_rfl (by norm_num)

/-- C4: `send_msgs` spawns exactly `num_senders` sender-worker tasks plus
one progress-monitor task, the run starts from exactly the constructor's
pool and zeroed statistics with all workers at their loop tops
(`send_msgs` itself mutates nothing), and the `asyncio.gather` completes
exactly when every spawned task has completed. -/
theorem C4_send_msgs_spawning (m : SenderManager) :
    m.senderPoolTasks.count SimTask.sender = m.num_senders.toNat
    ∧ m.senderPoolTasks.count SimTask.monitor = 1
    ∧ m.senderPoolTasks.length = m.num_senders.toNat + 1
    ∧ m.initState.shared.msg_pool = m.msg_pool
    ∧ m.initState.shared.stats = initStats
    ∧ m.initState.shared.log = []
    ∧ m.initState.workers.length = m.num_senders.toNat
    ∧ (∀ w ∈ m.initState.workers, w = WorkerState.atLoopTop)
    ∧ (∀ done : List Bool, gatherComplete done = true ↔
        ∀ d ∈ done, d = true) := by
  have hmap : (List.range' 1 m.num_senders.toNat).map
      (fun _ => SimTask.sender) =
      List.replicate m.num_senders.toNat SimTask.sender := by
    rw [List.eq_replicate_iff]
    constructor
    · simp
    · intro b hb
      simp only [List.mem_map] at hb
      obtain ⟨-, -, hb⟩ := hb
      exact hb.symm
  refine ⟨?_, ?_, ?_, rfl, rfl, rfl, ?_, ?_, ?_⟩
  · unfold SenderManager.senderPoolTasks
    rw [hmap, List.count_append, List.count_replicate]
    simp
  · unfold SenderManager.senderPoolTasks
    rw [hmap, List.count_append, List.count_replicate]
    simp
  · unfold SenderManager.senderPoolTasks
    simp
  · unfold SenderManager.initState
    simp
  · intro w hw
    unfold SenderManager.initState at hw
    exact List.eq_of_mem_replicate hw
  · intro done
    unfold gatherComplete
    rw [List.all_eq_true]
    simp

theorem C4_send_msgs_spawning_witness :
    gatherComplete [true, true] = true ↔ ∀ d ∈ [true, true], d = true :=
  (C4_send_msgs_spawning mgrEx).2.2.2.2.2.2.2.2 [true, true]

/-- C7: each monitor report computes the average send time as
`total_send_time / messages_sent`, and when `messages_sent` is zero the
division error is caught and the reported average is `0.0`, printed as
`0.00s`; the report is a total function of the statistics, so no division
error propagates. -/
theorem C7_monitor_average_zero_safe (st : Stats) :
    (st.messages_sent ≠ 0 →
      progressMonitorAverage st = st.total_send_time / st.messages_sent)
    ∧ (st.messages_sent = 0 →
      progressMonitorAverage st = 0 ∧
      (progressMonitorReport st).average_line
        = "Average Message Send Time: 0.00s") := by
  constructor
  · intro h
    unfold progressMonitorAverage
    rw [if_neg h]
  · intro h
    have h0 : progressMonitorAverage st = 0 := by
      unfold progressMonitorAverage
      rw [if_pos h]
    refine ⟨h0, ?_⟩
    unfold progressMonitorReport
    rw [h0]
    have hf : format2f 0 = "0.00" := by
      simp [format2f, pad2]
      rfl
    rw [hf]
    rfl

theorem C7_monitor_average_zero_safe_witness :
    progressMonitorAverage
        { messages_sent := 0, messages_failed := 3, total_send_time := 0 }
        = 0 ∧
    (progressMonitorReport
        { messages_sent := 0, messages_failed := 3,
          total_send_time := 0 }).average_line
      = "Average Message Send Time: 0.00s" :=
  (C7_monitor_average_zero_safe
    { messages_sent := 0, messages_failed := 3, total_send_time := 0 }).2 rfl

theorem pyChoices_length (pop : List Char) (k : ℕ) (g : Rng) :
    (pyChoices pop k g).1.length = k := by
  induction k generalizing g with
  | zero => rfl
  | succ n ih => simp [pyChoices, ih]

theorem pyChoices_mem (pop : List Char) (hpop : pop ≠ []) (k : ℕ) (g : Rng) :
    ∀ c ∈ (pyChoices pop k g).1, c ∈ pop := by
  induction k generalizing g with
  | zero =>
    intro c hc
    simp [pyChoices] at hc
  | succ n ih =>
    intro c hc
    simp only [pyChoices, List.mem_cons] at hc
    rcases hc with h | h
    · subst h
      have hlen : 0 < pop.length := List.length_pos.mpr hpop
      have hidx : g.next.1 % pop.length < pop.length := Nat.mod_lt _ hlen
      rw [List.getD_eq_getElem?_getD, List.getElem?_eq_getElem hidx]
      exact List.getElem_mem hidx
    · exact ih _ c h

theorem generate_msg_spec (g : Rng) :
    (generate_msg g).1.phone_number.length = 10 ∧
    (∀ c ∈ (generate_msg g).1.phone_number.toList, c.isDigit) ∧
    1 ≤ (generate_msg g).1.msg_body.length ∧
    (generate_msg g).1.msg_body.length ≤ 100 ∧
    (∀ c ∈ (generate_msg g).1.msg_body.toList, c.isAlpha) ∧
    (generate_msg g).1.send_time = 0 ∧
    (generate_msg g).1.sent_status = false := by
  have hdigit : ∀ c ∈ stringDigits, c.isDigit := by decide
  have halpha : ∀ c ∈ stringAsciiLetters, c.isAlpha := by decide
  have hb := randint_bounds (a := 1) (b := MSG_LEN_LIMIT) (by decide)
    ((pyChoices stringDigits 10 g).2.stream
      (pyChoices stringDigits 10 g).2.idx)
  unfold MSG_LEN_LIMIT at hb
  unfold generate_msg pyRandint Rng.next MSG_LEN_LIMIT
  simp only []
  refine ⟨?_, ?_, ?_, ?_, ?_, by trivial, by trivial⟩
  · exact pyChoices_length stringDigits 10 g
  · intro c hc
    exact hdigit c (pyChoices_mem stringDigits (by decide) 10 g c hc)
  · show 1 ≤ (pyChoices stringAsciiLetters _ _).1.length
    rw [pyChoices_length]
    omega
  · show (pyChoices stringAsciiLetters _ _).1.length ≤ 100
    rw [pyChoices_length]
    omega
  · intro c hc
    exact halpha c (pyChoices_mem stringAsciiLetters (by decide) _ _ c hc)

theorem generateMsgList_length (n : ℕ) (g : Rng) :
    (generateMsgList n g).1.length = n := by
  induction n generalizing g with
  | zero => rfl
  | succ k ih => simp [generateMsgList, ih]

theorem generateMsgList_mem (n : ℕ) (g : Rng) :
    ∀ msg ∈ (generateMsgList n g).1, ∃ g', msg = (generate_msg g').1 := by
  induction n generalizing g with
  | zero =>
    intro msg hmsg
    simp [generateMsgList] at hmsg
  | succ k ih =>
    intro msg hmsg
    simp only [generateMsgList, List.mem_cons] at hmsg
    rcases hmsg with h | h
    · exact ⟨g, h⟩
    · exact ih _ msg h

/-- C8: for every positive integer `n`, `generate_msg_pool(n)` returns
exactly `n` messages, each with a 10-digit numeric phone number, an
alphabetic body of length 1 to 100, `send_time = 0` and
`sent_status = false`; a non-integer count raises `TypeError` and an
integer count below 1 raises `ValueError`, each naming `msg_count`. -/
theorem C8_generate_msg_pool_shape :
    (∀ (n : ℤ) (g : Rng), 1 ≤ n →
      ∃ (ms : List Message) (g2 : Rng),
        generate_msg_pool (.int n) g = .ok (ms, g2) ∧
        (ms.length : ℤ) = n ∧
        ∀ msg ∈ ms,
          msg.phone_number.length = 10 ∧
          (∀ c ∈ msg.phone_number.toList, c.isDigit) ∧
          1 ≤ msg.msg_body.length ∧ msg.msg_body.length ≤ 100 ∧
          (∀ c ∈ msg.msg_body.toList, c.isAlpha) ∧
          msg.send_time = 0 ∧ msg.sent_status = false)
    ∧ (∀ (v : PyVal) (g : Rng), (∀ k : ℤ, v ≠ .int k) →
        generate_msg_pool v g = .error (.typeError
          ("msg_count cannot be type " ++ v.typeName ++ " must be int.")) ∧
        mentionsField ("msg_count cannot be type " ++ v.typeName ++
          " must be int.") "msg_count" = true)
    ∧ (∀ (n : ℤ) (g : Rng), n < 1 →
        generate_msg_pool (.int n) g = .error (.valueError
          ("msg_count cannot be " ++ toString n ++
            ", must be 1 or greater.")) ∧
        mentionsField ("msg_count cannot be " ++ toString n ++
          ", must be 1 or greater.") "msg_count" = true) := by
  refine ⟨?_, ?_, ?_⟩
  · intro n g hn
    refine ⟨(generateMsgList n.toNat g).1, (generateMsgList n.toNat g).2,
      ?_, ?_, ?_⟩
    · simp only [generate_msg_pool]
      rw [if_neg (by omega)]
    · rw [generateMsgList_length]
      omega
    · intro msg hmsg
      obtain ⟨g', hg'⟩ := generateMsgList_mem n.toNat g msg hmsg
      rw [hg']
      exact generate_msg_spec g'
  · intro v g hv
    constructor
    · cases v with
      | int k => exact absurd rfl (hv k)
      | str s => rfl
      | float q => rfl
      | list l => rfl
      | pynone => rfl
    · exact mentionsField_append_right _ _ _
        (mentionsField_append_right _ _ _ (by decide))
  · intro n g hn
    constructor
    · simp only [generate_msg_pool]
      rw [if_pos hn]
    · exact mentionsField_append_right _ _ _
        (mentionsField_append_right _ _ _ (by decide))

theorem C8_generate_msg_pool_shape_witness :
    ∃ (ms : List Message) (g2 : Rng),
      generate_msg_pool (.int 1) rngEx = .ok (ms, g2) ∧
      (ms.length : ℤ) = 1 ∧
      ∀ msg ∈ ms,
        msg.phone_number.length = 10 ∧
        (∀ c ∈ msg.phone_number.toList, c.isDigit) ∧
        1 ≤ msg.msg_body.length ∧ msg.msg_body.length ≤ 100 ∧
        (∀ c ∈ msg.msg_body.toList, c.isAlpha) ∧
        msg.send_time = 0 ∧ msg.sent_status = false :=
  C8_generate_msg_pool_shape.1 1 rngEx le_rfl

/-- C9: `parse_config_file` fails with `FileNotFoundError` when the path
is not an existing file; when the path exists but its extension (the last
dot-separated component) is not `toml`, it fails with the invalid-format
`ValueError` whose message names the path and the expected `toml`
extension; and a missing file is reported as `FileNotFoundError` even when
its extension is also wrong. -/
theorem C9_parse_config_file_errors {α : Type} (isfile : String → Bool)
    (toml_loads : String → α) (p : String) :
    (isfile p = false →
      parse_config_file isfile toml_loads (.str p) =
        .error (.fileNotFoundError ("Config file: " ++ p ++
          " not found. Check that the correct config file was used.")))
    ∧ (isfile p = true → lastDotComponent p ≠ "toml".toList →
      parse_config_file isfile toml_loads (.str p) =
        .error (.valueError ("Invalid file extension in config file: " ++
          p ++ ", should be a toml file.")) ∧
      mentionsField ("Invalid file extension in config file: " ++ p ++
        ", should be a toml file.") "toml" = true)
    ∧ (isfile p = false → lastDotComponent p ≠ "toml".toList →
      ∃ emsg, parse_config_file isfile toml_loads (.str p) =
        .error (.fileNotFoundError emsg)) := by
  refine ⟨?_, ?_, ?_⟩
  · intro h
    simp only [parse_config_file]
    rw [if_pos h]
  · intro h hext
    constructor
    · simp only [parse_config_file]
      rw [if_neg (by simp [h]), if_pos hext]
    · exact mentionsField_append_left _ _ _ (by decide)
  · intro h _
    refine ⟨"Config file: " ++ p ++
      " not found. Check that the correct config file was used.", ?_⟩
    simp only [parse_config_file]
    rw [if_pos h]

theorem C9_parse_config_file_errors_witness :
    parse_config_file (fun _ => false) (fun _ => (0 : ℕ))
        (.str "invalid_path") =
      .error (.fileNotFoundError ("Config file: " ++ "invalid_path" ++
        " not found. Check that the correct config file was used.")) :=
  (C9_parse_config_file_errors (fun _ => false) (fun _ => (0 : ℕ))
    "invalid_path").1 rfl

/-- C3: every constructor input violating a stated constraint makes
`__init__` fail — `TypeError` for a wrong kind, `ValueError` for an
out-of-range value — with a message naming the offending field; and
conversely a successful construction implies every constraint held (so no
violating input ever yields an instance, and no task can be spawned, since
tasks are only created by `send_msgs` on a constructed instance). -/
theorem C3_constructor_validation :
    (∀ x1 x2 x3 x4 x5 x6 : PyVal, (∀ k : ℤ, x1 ≠ .int k) →
      SenderManager.init x1 x2 x3 x4 x5 x6 = .error (.typeError
        ("avg_send_time cannot be type " ++ x1.typeName ++
          " must be int.")) ∧
      mentionsField ("avg_send_time cannot be type " ++ x1.typeName ++
        " must be int.") "avg_send_time" = true)
    ∧ (∀ (a : ℤ) (x2 x3 x4 x5 x6 : PyVal), a < 2 →
      SenderManager.init (.int a) x2 x3 x4 x5 x6 = .error (.valueError
        ("avg_send_time cannot be " ++ toString a ++
          ", must be 2 or greater.")) ∧
      mentionsField ("avg_send_time cannot be " ++ toString a ++
        ", must be 2 or greater.") "avg_send_time" = true)
    ∧ (∀ (a : ℤ) (x2 x3 x4 x5 x6 : PyVal), 2 ≤ a →
        (∀ k : ℤ, x2 ≠ .int k) →
      SenderManager.init (.int a) x2 x3 x4 x5 x6 = .error (.typeError
        ("avg_send_time_factor cannot be type " ++ x2.typeName ++
          " must be int.")) ∧
      mentionsField ("avg_send_time_factor cannot be type " ++
        x2.typeName ++ " must be int.") "avg_send_time_factor" = true)
    ∧ (∀ (a f : ℤ) (x3 x4 x5 x6 : PyVal), 2 ≤ a → f < 0 →
      SenderManager.init (.int a) (.int f) x3 x4 x5 x6 = .error (.valueError
        ("avg_send_time_factor cannot be " ++ toString f ++
          ", must be 0 or greater.")) ∧
      mentionsField ("avg_send_time_factor cannot be " ++ toString f ++
        ", must be 0 or greater.") "avg_send_time_factor" = true)
    ∧ (∀ (a f : ℤ) (x3 x4 x5 x6 : PyVal), 2 ≤ a → 0 ≤ f →
        (∀ k : ℤ, x3 ≠ .int k) →
      SenderManager.init (.int a) (.int f) x3 x4 x5 x6 = .error (.typeError
        ("failure_rate cannot be type " ++ x3.typeName ++
          " must be int.")) ∧
      mentionsField ("failure_rate cannot be type " ++ x3.typeName ++
        " must be int.") "failure_rate" = true)
    ∧ (∀ (a f fr : ℤ) (x4 x5 x6 : PyVal), 2 ≤ a → 0 ≤ f →
        (fr < 0 ∨ fr > 100) →
      SenderManager.init (.int a) (.int f) (.int fr) x4 x5 x6 =
        .error (.valueError ("failure_rate cannot be " ++ toString fr ++
          ", must be in the range of 0 - 100.")) ∧
      mentionsField ("failure_rate cannot be " ++ toString fr ++
        ", must be in the range of 0 - 100.") "failure_rate" = true)
    ∧ (∀ (a f fr : ℤ) (x4 x5 x6 : PyVal), 2 ≤ a → 0 ≤ f → 0 ≤ fr →
        fr ≤ 100 → (∀ l : List Message, x4 ≠ .list l) →
      SenderManager.init (.int a) (.int f) (.int fr) x4 x5 x6 =
        .error (.typeError ("msg_pool cannot be type " ++ x4.typeName ++
          " must be list.")) ∧
      mentionsField ("msg_pool cannot be type " ++ x4.typeName ++
        " must be list.") "msg_pool" = true)
    ∧ (∀ (a f fr : ℤ) (pool : List Message) (x5 x6 : PyVal), 2 ≤ a →
        0 ≤ f → 0 ≤ fr → fr ≤ 100 → pool.length < 1 →
      SenderManager.init (.int a) (.int f) (.int fr) (.list pool) x5 x6 =
        .error (.valueError
          ("msg_pool length cannot be [], must be greater than 1.")) ∧
      mentionsField "msg_pool length cannot be [], must be greater than 1."
        "msg_pool" = true)
    ∧ (∀ (a f fr : ℤ) (pool : List Message) (x5 x6 : PyVal), 2 ≤ a →
        0 ≤ f → 0 ≤ fr → fr ≤ 100 → 1 ≤ pool.length →
        (∀ k : ℤ, x5 ≠ .int k) →
      SenderManager.init (.int a) (.int f) (.int fr) (.list pool) x5 x6 =
        .error (.typeError ("num_senders cannot be type " ++ x5.typeName ++
          " must be int.")) ∧
      mentionsField ("num_senders cannot be type " ++ x5.typeName ++
        " must be int.") "num_senders" = true)
    ∧ (∀ (a f fr ns : ℤ) (pool : List Message) (x6 : PyVal), 2 ≤ a →
        0 ≤ f → 0 ≤ fr → fr ≤ 100 → 1 ≤ pool.length → ns < 1 →
      SenderManager.init (.int a) (.int f) (.int fr) (.list pool)
          (.int ns) x6 =
        .error (.valueError ("num_senders cannot be " ++ toString ns ++
          ", must be greater than 1.")) ∧
      mentionsField ("num_senders cannot be " ++ toString ns ++
        ", must be greater than 1.") "num_senders" = true)
    ∧ (∀ (a f fr ns : ℤ) (pool : List Message) (x6 : PyVal), 2 ≤ a →
        0 ≤ f → 0 ≤ fr → fr ≤ 100 → 1 ≤ pool.length → 1 ≤ ns →
        (∀ k : ℤ, x6 ≠ .int k) →
      SenderManager.init (.int a) (.int f) (.int fr) (.list pool)
          (.int ns) x6 =
        .error (.typeError ("progress_monitor_refresh_rate cannot be type "
          ++ x6.typeName ++ " must be int.")) ∧
      mentionsField ("progress_monitor_refresh_rate cannot be type " ++
        x6.typeName ++ " must be int.") "progress_monitor_refresh_rate"
        = true)
    ∧ (∀ (a f fr ns rr : ℤ) (pool : List Message), 2 ≤ a → 0 ≤ f →
        0 ≤ fr → fr ≤ 100 → 1 ≤ pool.length → 1 ≤ ns → rr < 1 →
      SenderManager.init (.int a) (.int f) (.int fr) (.list pool)
          (.int ns) (.int rr) =
        .error (.valueError ("progress_monitor_refresh_rate cannot be " ++
          toString rr ++ ", must be 1 or greater.")) ∧
      mentionsField ("progress_monitor_refresh_rate cannot be " ++
        toString rr ++ ", must be 1 or greater.")
        "progress_monitor_refresh_rate" = true)
    ∧ (∀ (x1 x2 x3 x4 x5 x6 : PyVal) (mm : SenderManager),
        SenderManager.init x1 x2 x3 x4 x5 x6 = .ok mm →
      mm.Valid ∧ x1 = .int mm.avg_send_time ∧
        x2 = .int mm.avg_send_time_factor ∧ x3 = .int mm.failure_rate ∧
        x4 = .list mm.msg_pool ∧ x5 = .int mm.num_senders ∧
        x6 = .int mm.progress_monitor_refresh_rate) := by
  refine ⟨?_, ?_, ?_, ?_, ?_, ?_, ?_, ?_, ?_, ?_, ?_, ?_, ?_⟩
  · intro x1 x2 x3 x4 x5 x6 hv
    constructor
    · cases x1 with
      | int k => exact absurd rfl (hv k)
      | str s => rfl
      | float q => rfl
      | list l => rfl
      | pynone => rfl
    · exact mentionsField_append_right _ _ _
        (mentionsField_append_right _ _ _ (by decide))
  · intro a x2 x3 x4 x5 x6 ha
    constructor
    · simp only [SenderManager.init]
      rw [if_pos ha]
    · exact mentionsField_append_right _ _ _
        (mentionsField_append_right _ _ _ (by decide))
  · intro a x2 x3 x4 x5 x6 ha hv
    constructor
    · simp only [SenderManager.init]
      rw [if_neg (show ¬a < 2 by omega)]
    · exact mentionsField_append_right _ _ _
        (mentionsField_append_right _ _ _ (by decide))
  · intro a f x3 x4 x5 x6 ha hf
    constructor
    · simp only [SenderManager.init]
      rw [if_neg (show ¬a < 2 by omega), if_pos hf]
    · exact mentionsField_append_right _ _ _
        (mentionsField_append_right _ _ _ (by decide))
  · intro a f x3 x4 x5 x6 ha hf hv
    constructor
    · simp only [SenderManager.init]
      rw [if_neg (show ¬a < 2 by omega), if_neg (show ¬f < 0 by omega)]
    · exact mentionsField_append_right _ _ _
        (mentionsField_append_right _ _ _ (by decide))
  · intro a f fr x4 x5 x6 ha hf hfr
    constructor
    · simp only [SenderManager.init]
      rw [if_neg (show ¬a < 2 by omega), if_neg (show ¬f < 0 by omega),
        if_pos hfr]
    · exact mentionsField_append_right _ _ _
        (mentionsField_append_right _ _ _ (by decide))
  · intro a f fr x4 x5 x6 ha hf hfr1 hfr2 hv
    constructor
    · simp only [SenderManager.init]
      rw [if_neg (show ¬a < 2 by omega), if_neg (show ¬f < 0 by omega),
        if_neg (show ¬(fr < 0 ∨ fr > 100) by omega)]
    · exact mentionsField_append_right _ _ _
        (mentionsField_append_right _ _ _ (by decide))
  · intro a f fr pool x5 x6 ha hf hfr1 hfr2 hp
    constructor
    · simp only [SenderManager.init]
      rw [if_neg (show ¬a < 2 by omega), if_neg (show ¬f < 0 by omega),
        if_neg (show ¬(fr < 0 ∨ fr > 100) by omega), if_pos hp]
    · decide
  · intro a f fr pool x5 x6 ha hf hfr1 hfr2 hp hv
    constructor
    · simp only [SenderManager.init]
      rw [if_neg (show ¬a < 2 by omega), if_neg (show ¬f < 0 by omega),
        if_neg (show ¬(fr < 0 ∨ fr > 100) by omega),
        if_neg (show ¬pool.length < 1 by omega)]
    · exact mentionsField_append_right _ _ _
        (mentionsField_append_right _ _ _ (by decide))
  · intro a f fr ns pool x6 ha hf hfr1 hfr2 hp hns
    constructor
    · simp only [SenderManager.init]
      rw [if_neg (show ¬a < 2 by omega), if_neg (show ¬f < 0 by omega),
        if_neg (show ¬(fr < 0 ∨ fr > 100) by omega),
        if_neg (show ¬pool.length < 1 by omega), if_pos hns]
    · exact mentionsField_append_right _ _ _
        (mentionsField_append_right _ _ _ (by decide))
  · intro a f fr ns pool x6 ha hf hfr1 hfr2 hp hns hv
    constructor
    · simp only [SenderManager.init]
      rw [if_neg (show ¬a < 2 by omega), if_neg (show ¬f < 0 by omega),
        if_neg (show ¬(fr < 0 ∨ fr > 100) by omega),
        if_neg (show ¬pool.length < 1 by omega),
        if_neg (show ¬ns < 1 by omega)]
    · exact mentionsField_append_right _ _ _
        (mentionsField_append_right _ _ _ (by decide))
  · intro a f fr ns rr pool ha hf hfr1 hfr2 hp hns hrr
    constructor
    · simp only [SenderManager.init]
      rw [if_neg (show ¬a < 2 by omega), if_neg (show ¬f < 0 by omega),
        if_neg (show ¬(fr < 0 ∨ fr > 100) by omega),
        if_neg (show ¬pool.length < 1 by omega),
        if_neg (show ¬ns < 1 by omega), if_pos hrr]
    · exact mentionsField_append_right _ _ _
        (mentionsField_append_right _ _ _ (by decide))
  · intro x1 x2 x3 x4 x5 x6 mm hok
    cases x1 with
    | str s => exact absurd hok (by simp [SenderManager.init])
    | float q => exact absurd hok (by simp [SenderManager.init])
    | list l => exact absurd hok (by simp [SenderManager.init])
    | pynone => exact absurd hok (by simp [SenderManager.init])
    | int a =>
    simp only [SenderManager.init] at hok
    by_cases ha : a < 2
    · rw [if_pos ha] at hok
      exact absurd hok (by simp)
    rw [if_neg ha] at hok
    cases x2 with
    | str s => exact absurd hok (by simp)
    | float q => exact absurd hok (by simp)
    | list l => exact absurd hok (by simp)
    | pynone => exact absurd hok (by simp)
    | int f =>
    simp only [] at hok
    by_cases hf : f < 0
    · rw [if_pos hf] at hok
      exact absurd hok (by simp)
    rw [if_neg hf] at hok
    cases x3 with
    | str s => exact absurd hok (by simp)
    | float q => exact absurd hok (by simp)
    | list l => exact absurd hok (by simp)
    | pynone => exact absurd hok (by simp)
    | int fr =>
    simp only [] at hok
    by_cases hfr : fr < 0 ∨ fr > 100
    · rw [if_pos hfr] at hok
      exact absurd hok (by simp)
    rw [if_neg hfr] at hok
    cases x4 with
    | int k => exact absurd hok (by simp)
    | str s => exact absurd hok (by simp)
    | float q => exact absurd hok (by simp)
    | pynone => exact absurd hok (by simp)
    | list pool =>
    simp only [] at hok
    by_cases hp : pool.length < 1
    · rw [if_pos hp] at hok
      exact absurd hok (by simp)
    rw [if_neg hp] at hok
    cases x5 with
    | str s => exact absurd hok (by simp)
    | float q => exact absurd hok (by simp)
    | list l => exact absurd hok (by simp)
    | pynone => exact absurd hok (by simp)
    | int ns =>
    simp only [] at hok
    by_cases hns : ns < 1
    · rw [if_pos hns] at hok
      exact absurd hok (by simp)
    rw [if_neg hns] at hok
    cases x6 with
    | str s => exact absurd hok (by simp)
    | float q => exact absurd hok (by simp)
    | list l => exact absurd hok (by simp)
    | pynone => exact absurd hok (by simp)
    | int rr =>
    simp only [] at hok
    by_cases hrr : rr < 1
    · rw [if_pos hrr] at hok
      exact absurd hok (by simp)
    rw [if_neg hrr] at hok
    simp only [Except.ok.injEq] at hok
    subst hok
    refine ⟨?_, rfl, rfl, rfl, rfl, rfl, rfl⟩
    show 2 ≤ a ∧ 0 ≤ f ∧ 0 ≤ fr ∧ fr ≤ 100 ∧ pool ≠ [] ∧ 1 ≤ ns ∧ 1 ≤ rr
    refine ⟨by omega, by omega, by omega, by omega, ?_, by omega, by omega⟩
    intro hnil
    rw [hnil] at hp
    simp at hp

theorem C3_constructor_validation_witness :
    SenderManager.init (.str "hello") (.int 10) (.int 10) (.list [msgEx])
        (.int 10) (.int 10) = .error (.typeError
      ("avg_send_time cannot be type " ++ (PyVal.str "hello").typeName ++
        " must be int.")) ∧
    mentionsField ("avg_send_time cannot be type " ++
      (PyVal.str "hello").typeName ++ " must be int.") "avg_send_time"
      = true :=
  C3_constructor_validation.1 (.str "hello") (.int 10) (.int 10)
    (.list [msgEx]) (.int 10) (.int 10) (fun _ h => PyVal.noConfusion h)
